import Mathlib

/-!
Verification of the ecommerce-analytics core: a shallow embedding of the
synthetic data generator (`src/generate_sample_data.py`), the RFM engine
(`src/rfm.analysis.py`) and the cohort engine (`src/cohort_analysis.py`).

Dates are modelled as integer day numbers (days since an epoch); calendar
months are modelled by an abstract month-index map `M : Int → Int` standing
for pandas `Series.dt.to_period('M')` (for real calendars `M` is monotone,
and theorems that need this take it as a hypothesis).  Money is modelled
as exact rationals, with `round2` standing for Python `round(x, 2)`.
-/

/-- A row of the orders table (columns used by the analytics core). -/
structure Order where
  order_id : Nat
  customer_id : Nat
  order_date : Int
  total_amount : ℚ
deriving DecidableEq, Repr

/-- A row of the customers table (columns used by the RFM merge). -/
structure Customer where
  customer_id : Nat
  customer_name : String
  country : String
deriving DecidableEq, Repr

/-- Minimum of an integer list, 0 on the empty list (callers only use it on
nonempty lists, mirroring pandas `.min()` over a nonempty group). -/
def listMinD : List Int → Int
  | [] => 0
  | d :: ds => ds.foldl min d

/-- Maximum of an integer list, 0 on the empty list (callers only use it on
nonempty lists, mirroring pandas `.max()` over a nonempty group). -/
def listMaxD : List Int → Int
  | [] => 0
  | d :: ds => ds.foldl max d

theorem foldl_min_le_init (l : List Int) (a : Int) : l.foldl min a ≤ a := by
  induction l generalizing a with
  | nil => exact le_refl a
  | cons x xs ih =>
    calc (x :: xs).foldl min a = xs.foldl min (min a x) := rfl
    _ ≤ min a x := ih (min a x)
    _ ≤ a := min_le_left a x

theorem foldl_min_le_mem (l : List Int) (a x : Int) (hx : x ∈ l) :
    l.foldl min a ≤ x := by
  induction l generalizing a with
  | nil => cases hx
  | cons y ys ih =>
    rcases List.mem_cons.mp hx with h | h
    · subst h
      calc (x :: ys).foldl min a = ys.foldl min (min a x) := rfl
      _ ≤ min a x := foldl_min_le_init ys (min a x)
      _ ≤ x := min_le_right a x
    · exact ih (min a y) h

theorem foldl_min_mem (l : List Int) (a : Int) :
    l.foldl min a = a ∨ l.foldl min a ∈ l := by
  induction l generalizing a with
  | nil => exact Or.inl rfl
  | cons x xs ih =>
    rcases ih (min a x) with h | h
    · rcases min_cases a x with ⟨he, _⟩ | ⟨he, _⟩
      · left
        rw [List.foldl_cons, h, he]
      · right
        rw [List.foldl_cons, h, he]
        exact List.mem_cons_self x xs
    · right
      exact List.mem_cons_of_mem x h

theorem init_le_foldl_max (l : List Int) (a : Int) : a ≤ l.foldl max a := by
  induction l generalizing a with
  | nil => exact le_refl a
  | cons x xs ih =>
    calc a ≤ max a x := le_max_left a x
    _ ≤ xs.foldl max (max a x) := ih (max a x)
    _ = (x :: xs).foldl max a := rfl

theorem mem_le_foldl_max (l : List Int) (a x : Int) (hx : x ∈ l) :
    x ≤ l.foldl max a := by
  induction l generalizing a with
  | nil => cases hx
  | cons y ys ih =>
    rcases List.mem_cons.mp hx with h | h
    · subst h
      calc x ≤ max a x := le_max_right a x
      _ ≤ ys.foldl max (max a x) := init_le_foldl_max ys (max a x)
      _ = (x :: ys).foldl max a := rfl
    · exact ih (max a y) h

theorem listMinD_le_mem (l : List Int) (x : Int) (hx : x ∈ l) : listMinD l ≤ x := by
  cases l with
  | nil => cases hx
  | cons d ds =>
    rcases List.mem_cons.mp hx with h | h
    · subst h
      exact foldl_min_le_init ds x
    · exact foldl_min_le_mem ds d x h

theorem listMinD_mem (l : List Int) (hl : l ≠ []) : listMinD l ∈ l := by
  cases l with
  | nil => exact absurd rfl hl
  | cons d ds =>
    rcases foldl_min_mem ds d with h | h
    · rw [listMinD, h]
      exact List.mem_cons_self d ds
    · exact List.mem_cons_of_mem d h

theorem mem_le_listMaxD (l : List Int) (x : Int) (hx : x ∈ l) : x ≤ listMaxD l := by
  cases l with
  | nil => cases hx
  | cons d ds =>
    rcases List.mem_cons.mp hx with h | h
    · subst h
      exact init_le_foldl_max ds x
    · exact mem_le_foldl_max ds d x h

/-! ## RFM segmentation (`RFMAnalysis._assign_segment`, rfm.analysis.py:56-73) -/

/-- `RFMAnalysis._assign_segment`: the cascading conditional over the score
triple, translated clause for clause from rfm.analysis.py lines 60-73. -/
def _assign_segment (r f m : Int) : String :=
  if r ≥ 4 ∧ f ≥ 4 ∧ m ≥ 4 then "Champions"
  else if r ≥ 3 ∧ f ≥ 3 ∧ m ≥ 3 then "Loyal"
  else if r ≥ 3 ∧ f ≤ 2 then "Potential Loyalist"
  else if r ≤ 2 ∧ f ≥ 3 then "At Risk"
  else if r ≤ 2 ∧ f ≤ 2 ∧ m ≥ 3 then "Cant Lose"
  else if r ≤ 2 ∧ f ≤ 2 then "Lost"
  else "Others"

/-- Spec-side rendering of the segment rules: an ordered list of
(predicate, label) pairs, as the spec describes the decision table. -/
def segmentRules : List ((Int × Int × Int → Bool) × String) :=
  [ (fun p => decide (p.1 ≥ 4 ∧ p.2.1 ≥ 4 ∧ p.2.2 ≥ 4), "Champions"),
    (fun p => decide (p.1 ≥ 3 ∧ p.2.1 ≥ 3 ∧ p.2.2 ≥ 3), "Loyal"),
    (fun p => decide (p.1 ≥ 3 ∧ p.2.1 ≤ 2), "Potential Loyalist"),
    (fun p => decide (p.1 ≤ 2 ∧ p.2.1 ≥ 3), "At Risk"),
    (fun p => decide (p.1 ≤ 2 ∧ p.2.1 ≤ 2 ∧ p.2.2 ≥ 3), "Cant Lose"),
    (fun p => decide (p.1 ≤ 2 ∧ p.2.1 ≤ 2), "Lost") ]

/-- First-match-wins evaluation of an ordered rule list, with the final
fall-through label "Others" (the spec's `else → Others`). -/
def firstMatchLabel : List ((Int × Int × Int → Bool) × String) → (Int × Int × Int) → String
  | [], _ => "Others"
  | (p, lbl) :: rest, x => if p x then lbl else firstMatchLabel rest x

/-- Claim C1: the segment label is assigned by the fixed rule cascade in
order with first match winning, and in particular (5,5,5) maps to
Champions, (1,1,1) to Lost, and (3,1,5) to Potential Loyalist. -/
theorem c1_segment_cascade :
    (∀ r f m : Int,
      _assign_segment r f m = firstMatchLabel segmentRules (r, f, m)) ∧
    _assign_segment 5 5 5 = "Champions" ∧
    _assign_segment 1 1 1 = "Lost" ∧
    _assign_segment 3 1 5 = "Potential Loyalist" := by
  refine ⟨?_, by decide, by decide, by decide⟩
  intro r f m
  simp only [_assign_segment, segmentRules, firstMatchLabel, decide_eq_true_eq]

/-! ## Generator money model (generate_sample_data.py:139-165) -/

/-- Python `round(x, 2)` on the exact value: round `100*x` to the nearest
integer and divide back.  (Python rounds floats half-to-even; all concrete
inputs below sit far from a half-cent boundary, where every
round-to-nearest rule agrees.) -/
def round2 (x : ℚ) : ℚ := (round (100 * x) : ℚ) / 100

/-- One drawn line item of an order: the sampled product's unit price, the
drawn quantity and the drawn discount (generate_sample_data.py:140-143). -/
structure ItemDraw where
  unit_price : ℚ
  quantity : Nat
  discount : ℚ
deriving DecidableEq, Repr

/-- `line_total = product['unit_price'] * quantity * (1 - discount)`
(generate_sample_data.py:144), before any rounding. -/
def line_total (it : ItemDraw) : ℚ :=
  it.unit_price * (it.quantity : ℚ) * (1 - it.discount)

/-- The `line_total` column stored in the order-items table:
`round(line_total, 2)` (generate_sample_data.py:154). -/
def stored_line_total (it : ItemDraw) : ℚ := round2 (line_total it)

/-- The `total_amount` column stored in the orders table: the unrounded
line totals are accumulated into `order_total` (line 145) and rounded once
at the end, `round(order_total, 2)` (generate_sample_data.py:163). -/
def stored_order_total (items : List ItemDraw) : ℚ :=
  round2 ((items.map line_total).sum)

/-- A realizable order: three items with 2-decimal unit prices and the 5%
discount from the generator's discount distribution.  Each exact line total
ends in 0.4 of a cent, so each stored line total rounds down, while the
stored order total is rounded only once. -/
def c3Items : List ItemDraw :=
  [ { unit_price := 1012/100, quantity := 1, discount := 5/100 },
    { unit_price := 2032/100, quantity := 1, discount := 5/100 },
    { unit_price := 3052/100, quantity := 1, discount := 5/100 } ]

/-! ## Generator registration dates (generate_sample_data.py:39-51) -/

/-- `(END_DATE - START_DATE).days` for the window 2022-01-01 .. 2024-11-30:
365 + 365 + 334 days (2024 is a leap year). -/
def windowLengthDays : Nat := 1064

/-- `reg_date = START_DATE + timedelta(days=random.randint(0, (END_DATE -
START_DATE).days))` (generate_sample_data.py:42); `random.randint(0, d)` is
inclusive on both endpoints, so the valid draws are `0 ≤ draw ≤ d`. -/
def registration_date (startDay : Int) (draw : Nat) : Int :=
  startDay + (draw : Int)

theorem abs_round2_sub (x : ℚ) : |round2 x - x| ≤ 1 / 200 := by
  have h : |(round (100 * x) : ℚ) - 100 * x| ≤ 1 / 2 := by
    rw [abs_sub_comm]
    exact abs_sub_round (100 * x)
  have hx : round2 x - x = ((round (100 * x) : ℚ) - 100 * x) / 100 := by
    rw [round2]
    ring
  rw [hx, abs_div]
  have h100 : |(100 : ℚ)| = 100 := by norm_num
  rw [h100]
  linarith

theorem sum_stored_err (items : List ItemDraw) :
    |(items.map stored_line_total).sum - (items.map line_total).sum| ≤
      (items.length : ℚ) / 200 := by
  induction items with
  | nil => simp
  | cons it rest ih =>
    simp only [List.map_cons, List.sum_cons, List.length_cons]
    have h1 : |stored_line_total it - line_total it| ≤ 1 / 200 :=
      abs_round2_sub (line_total it)
    have hsplit :
        stored_line_total it + (rest.map stored_line_total).sum -
          (line_total it + (rest.map line_total).sum) =
        (stored_line_total it - line_total it) +
          ((rest.map stored_line_total).sum - (rest.map line_total).sum) := by
      ring
    rw [hsplit]
    calc |(stored_line_total it - line_total it) +
            ((rest.map stored_line_total).sum - (rest.map line_total).sum)|
        ≤ |stored_line_total it - line_total it| +
            |(rest.map stored_line_total).sum - (rest.map line_total).sum| :=
          abs_add _ _
      _ ≤ 1 / 200 + (rest.length : ℚ) / 200 := add_le_add h1 ih
      _ = ((rest.length : ℚ) + 1) / 200 := by ring
      _ = (((rest.length : Nat) + 1 : Nat) : ℚ) / 200 := by push_cast; ring

/-- Claim C3 counterexample: for the realizable three-item order `c3Items`
the stored order total is 57.91 dollars while the sum of the stored
(per-item rounded) line totals is 57.90 dollars, so the two differ by one
cent. -/
theorem c3_counterexample :
    stored_order_total c3Items = 5791 / 100 ∧
    (c3Items.map stored_line_total).sum = 5790 / 100 ∧
    stored_order_total c3Items ≠ (c3Items.map stored_line_total).sum := by
  have h1 : stored_order_total c3Items = 5791 / 100 := by
    with_unfolding_all rfl
  have h2 : (c3Items.map stored_line_total).sum = 5790 / 100 := by
    with_unfolding_all rfl
  refine ⟨h1, h2, ?_⟩
  rw [h1, h2]
  norm_num

/-- Claim C3 (amended): the stored total amount equals the exact sum of the
order's unrounded line totals rounded once to 2 decimals; it can differ
from the sum of the stored per-item rounded line totals, but by at most
half a cent per item plus half a cent for the final rounding. -/
theorem c3_order_total_rounding (items : List ItemDraw) :
    stored_order_total items = round2 ((items.map line_total).sum) ∧
    |stored_order_total items - (items.map stored_line_total).sum| ≤
      ((items.length : ℚ) + 1) / 200 := by
  refine ⟨rfl, ?_⟩
  have h1 : |round2 ((items.map line_total).sum) - (items.map line_total).sum|
      ≤ 1 / 200 := abs_round2_sub ((items.map line_total).sum)
  have h2 := sum_stored_err items
  have hsplit :
      stored_order_total items - (items.map stored_line_total).sum =
      (round2 ((items.map line_total).sum) - (items.map line_total).sum) -
        ((items.map stored_line_total).sum - (items.map line_total).sum) := by
    rw [stored_order_total]
    ring
  rw [hsplit]
  calc |(round2 ((items.map line_total).sum) - (items.map line_total).sum) -
          ((items.map stored_line_total).sum - (items.map line_total).sum)|
      ≤ |round2 ((items.map line_total).sum) - (items.map line_total).sum| +
          |(items.map stored_line_total).sum - (items.map line_total).sum| :=
        abs_sub _ _
    _ ≤ 1 / 200 + (items.length : ℚ) / 200 := add_le_add h1 h2
    _ = ((items.length : ℚ) + 1) / 200 := by ring

/-- Claim C8 counterexample: the draw `(END_DATE - START_DATE).days` is a
valid result of `random.randint(0, (END_DATE - START_DATE).days)` and it
puts the registration date exactly on the window end, so the registration
date is not strictly before the end of the generation window. -/
theorem c8_counterexample :
    windowLengthDays ≤ windowLengthDays ∧
    ¬ registration_date 0 windowLengthDays < 0 + (windowLengthDays : Int) := by
  decide

/-- Claim C8 (amended): for every valid draw of
`random.randint(0, (END_DATE - START_DATE).days)` the generated
registration date lies in the closed interval [start, end] of the
generation window (both endpoints attainable). -/
theorem c8_registration_window (startDay : Int) (draw : Nat)
    (h : draw ≤ windowLengthDays) :
    startDay ≤ registration_date startDay draw ∧
    registration_date startDay draw ≤ startDay + (windowLengthDays : Int) := by
  constructor
  · rw [registration_date]
    have : (0 : Int) ≤ (draw : Int) := Int.natCast_nonneg draw
    linarith
  · rw [registration_date]
    have : (draw : Int) ≤ (windowLengthDays : Int) := by exact_mod_cast h
    linarith

theorem c8_witness :
    (5 : Nat) ≤ windowLengthDays ∧
    (0 : Int) ≤ registration_date 0 5 ∧
    registration_date 0 5 ≤ 0 + (windowLengthDays : Int) := by
  refine ⟨by decide, ?_⟩
  exact c8_registration_window 0 5 (by decide)

/-! ## Cohort engine (cohort_analysis.py)

Calendar months are an abstract month-index map `M : Int → Int` over day
numbers, standing for `dt.to_period('M')`; subtraction of periods
(`.apply(lambda x: x.n)`, line 33-34) is integer subtraction of month
indices.  For a real calendar `M` is monotone. -/

/-- The order dates of one customer (the groupby group of line 21). -/
def custDates (orders : List Order) (c : Nat) : List Int :=
  (orders.filter (fun o => o.customer_id == c)).map (fun o => o.order_date)

/-- `first_purchase`: per-customer minimum order date
(cohort_analysis.py:21-22). -/
def first_purchase (orders : List Order) (c : Nat) : Int :=
  listMinD (custDates orders c)

/-- A row of the cohort-augmented order table built by `create_cohorts`
(cohort_analysis.py:26-34). -/
structure CohortRow where
  order_id : Nat
  customer_id : Nat
  order_date : Int
  total_amount : ℚ
  cohort_month : Int
  order_month : Int
  cohort_index : Int
deriving DecidableEq, Repr

/-- The cohort row the merge of lines 26-34 produces for one order. -/
def cohortRowOf (M : Int → Int) (orders : List Order) (o : Order) : CohortRow :=
  { order_id := o.order_id
    customer_id := o.customer_id
    order_date := o.order_date
    total_amount := o.total_amount
    cohort_month := M (first_purchase orders o.customer_id)
    order_month := M o.order_date
    cohort_index := M o.order_date - M (first_purchase orders o.customer_id) }

/-- `CohortAnalysis.create_cohorts` as a pure table transform
(cohort_analysis.py:18-37): every order row is augmented with its
customer's cohort month, its own order month and the cohort index. -/
def cohort_rows (M : Int → Int) (orders : List Order) : List CohortRow :=
  orders.map (cohortRowOf M orders)

/-- The distinct customers of cohort `cm` active at cohort index `k`:
the `nunique` aggregation of cohort_analysis.py:45-47. -/
def activeCustomers (rows : List CohortRow) (cm k : Int) : Finset Nat :=
  ((rows.filter (fun r => r.cohort_month == cm && r.cohort_index == k)).map
    (fun r => r.customer_id)).toFinset

/-- The cell value of the pivoted cohort table (distinct-customer count). -/
def nunique (rows : List CohortRow) (cm k : Int) : Nat :=
  (activeCustomers rows cm k).card

/-- The (cohort_month, cohort_index) pairs that actually occur: the
non-NaN cells of the pivot of cohort_analysis.py:50-52. -/
def presentPairs (rows : List CohortRow) : List (Int × Int) :=
  (rows.map (fun r => (r.cohort_month, r.cohort_index))).dedup

/-- The column label of the pivot table's first column:
`cohort_table.iloc[:, 0]` (cohort_analysis.py:55) takes the positionally
first column, which is the smallest cohort index present. -/
def zeroColD (rows : List CohortRow) : Int :=
  ((rows.map (fun r => r.cohort_index)).min?).getD 0

/-- The pair of tables `calculate_retention` returns, cell-listed:
`cells` is the cohort size table, `retention` the percentage table. -/
structure RetentionResult where
  cells : List (Int × Int × Nat)
  retention : List (Int × Int × ℚ)
deriving DecidableEq, Repr

/-- The tables of cohort_analysis.py:44-58: counts per present cell, and
each count divided by its cohort's entry in the first column, times 100. -/
def mkRetentionResult (rows : List CohortRow) : RetentionResult :=
  { cells := (presentPairs rows).map (fun p => (p.1, p.2, nunique rows p.1 p.2))
    retention := (presentPairs rows).map (fun p =>
      (p.1, p.2,
        100 * (nunique rows p.1 p.2 : ℚ) / (nunique rows p.1 (zeroColD rows) : ℚ))) }

def errEmptyPivot : String := "IndexError: single positional indexer is out-of-bounds"

def errKeyOne : String := "KeyError: 1"

def errKeyZero : String := "KeyError: 0"

def errRunRfmFirst : String := "ValueError: Run calculate_rfm() first"

/-- `calculate_retention` on a cohort table: on an empty table the
positional access `cohort_table.iloc[:, 0]` raises; otherwise both tables
are produced (cohort_analysis.py:44-58). -/
def calculate_retention_rows (rows : List CohortRow) : Except String RetentionResult :=
  match rows with
  | [] => .error errEmptyPivot
  | _ :: _ => .ok (mkRetentionResult rows)

/-- A row of `calculate_cohort_metrics` (cohort_analysis.py:82-100). -/
structure CohortMetricsRow where
  cohort_month : Int
  cohort_index : Int
  customers : Nat
  orders : Nat
  revenue : ℚ
  avg_revenue_per_customer : ℚ
deriving DecidableEq, Repr

/-- The orders falling in one (cohort_month, cohort_index) cell. -/
def cellRows (rows : List CohortRow) (cm k : Int) : List CohortRow :=
  rows.filter (fun r => r.cohort_month == cm && r.cohort_index == k)

/-- `calculate_cohort_metrics` as a pure table transform
(cohort_analysis.py:82-100): distinct customers, order count, revenue and
rounded average revenue per customer for every present cell. -/
def cohort_metrics_rows (rows : List CohortRow) : List CohortMetricsRow :=
  (presentPairs rows).map (fun p =>
    { cohort_month := p.1
      cohort_index := p.2
      customers := nunique rows p.1 p.2
      orders := (cellRows rows p.1 p.2).length
      revenue := ((cellRows rows p.1 p.2).map (fun r => r.total_amount)).sum
      avg_revenue_per_customer :=
        round2 ((((cellRows rows p.1 p.2).map (fun r => r.total_amount)).sum) /
          (nunique rows p.1 p.2 : ℚ)) })

/-- Does the pivot table have a column labelled `k`? -/
def hasIndex (rows : List CohortRow) (k : Int) : Bool :=
  rows.any (fun r => r.cohort_index == k)

/-- The cohort months having a (non-NaN) cell at index `k`. -/
def cohortsAt (rows : List CohortRow) (k : Int) : List Int :=
  ((rows.filter (fun r => r.cohort_index == k)).map (fun r => r.cohort_month)).dedup

/-- `retention_table[k].mean()`: the mean of the retention percentages over
the cohorts that have a value in column `k` (NaN cells are skipped by
pandas `mean`), with `i0` the first column used as the divisor. -/
def colMeanRetention (rows : List CohortRow) (i0 k : Int) : ℚ :=
  ((cohortsAt rows k).map (fun cm =>
    100 * (nunique rows cm k : ℚ) / (nunique rows cm i0 : ℚ))).sum /
    ((cohortsAt rows k).length : ℚ)

/-- `cohort_table[k].mean()`: the mean cohort size over the cohorts having
a value in column `k`. -/
def colMeanSize (rows : List CohortRow) (k : Int) : ℚ :=
  ((cohortsAt rows k).map (fun cm => (nunique rows cm k : ℚ))).sum /
    ((cohortsAt rows k).length : ℚ)

/-- The summary dict of `get_retention_summary`
(cohort_analysis.py:136-142). -/
structure RetentionSummary where
  month_1_retention : ℚ
  month_3_retention : Option ℚ
  month_6_retention : Option ℚ
  month_12_retention : Option ℚ
  avg_cohort_size : ℚ
deriving DecidableEq, Repr

/-- `get_retention_summary` on a cohort table (cohort_analysis.py:132-144):
`calculate_retention` runs first (raising on an empty table); then
`retention_table[1]` is accessed unguarded (KeyError when column 1 is
absent), the month-3/6/12 columns are guarded by membership tests, and
`cohort_table[0]` is accessed unguarded. -/
def get_retention_summary_rows (rows : List CohortRow) : Except String RetentionSummary :=
  match calculate_retention_rows rows with
  | .error e => .error e
  | .ok _ =>
    if hasIndex rows 1 then
      if hasIndex rows 0 then
        .ok { month_1_retention := colMeanRetention rows (zeroColD rows) 1
              month_3_retention :=
                if hasIndex rows 3 then some (colMeanRetention rows (zeroColD rows) 3) else none
              month_6_retention :=
                if hasIndex rows 6 then some (colMeanRetention rows (zeroColD rows) 6) else none
              month_12_retention :=
                if hasIndex rows 12 then some (colMeanRetention rows (zeroColD rows) 12) else none
              avg_cohort_size := colMeanSize rows 0 }
      else .error errKeyZero
    else .error errKeyOne

/-! ### CohortAnalysis object state (cohort_analysis.py:11-16, 39-42, 146-152) -/

/-- The mutable state of a `CohortAnalysis` object: its (copied) orders
table and the cached `cohort_data`. -/
structure CohortAnalysisState where
  orders : List Order
  cohort_data : Option (List CohortRow)
deriving DecidableEq, Repr

namespace CohortAnalysis

/-- `CohortAnalysis.__init__`: stores a copy of the orders and sets
`cohort_data = None`. -/
def init (orders : List Order) : CohortAnalysisState :=
  { orders := orders, cohort_data := none }

/-- `CohortAnalysis.create_cohorts`: computes the cohort table, caches it
and returns it. -/
def create_cohorts (M : Int → Int) (st : CohortAnalysisState) :
    CohortAnalysisState × List CohortRow :=
  let rows := cohort_rows M st.orders
  ({ st with cohort_data := some rows }, rows)

/-- The `if self.cohort_data is None: self.create_cohorts()` prelude that
every consumer method runs (cohort_analysis.py:41-42, 84-85, 148-149). -/
def ensure_cohorts (M : Int → Int) (st : CohortAnalysisState) :
    CohortAnalysisState × List CohortRow :=
  match st.cohort_data with
  | none => create_cohorts M st
  | some rows => (st, rows)

/-- `CohortAnalysis.calculate_retention` (cohort_analysis.py:39-58). -/
def calculate_retention (M : Int → Int) (st : CohortAnalysisState) :
    CohortAnalysisState × Except String RetentionResult :=
  let p := ensure_cohorts M st
  (p.1, calculate_retention_rows p.2)

/-- `CohortAnalysis.calculate_cohort_metrics` (cohort_analysis.py:82-100). -/
def calculate_cohort_metrics (M : Int → Int) (st : CohortAnalysisState) :
    CohortAnalysisState × List CohortMetricsRow :=
  let p := ensure_cohorts M st
  (p.1, cohort_metrics_rows p.2)

/-- `CohortAnalysis.get_retention_summary` (cohort_analysis.py:132-144). -/
def get_retention_summary (M : Int → Int) (st : CohortAnalysisState) :
    CohortAnalysisState × Except String RetentionSummary :=
  let p := ensure_cohorts M st
  (p.1, get_retention_summary_rows p.2)

/-- `CohortAnalysis.export_results` (cohort_analysis.py:146-152): ensures
the cohort table exists, then writes it out; the returned table is what is
written. -/
def export_results (M : Int → Int) (st : CohortAnalysisState) :
    CohortAnalysisState × List CohortRow :=
  ensure_cohorts M st

end CohortAnalysis

/-! ### Cohort table lemmas -/

theorem min?_eq_some_of (l : List Int) (a : Int) (ha : a ∈ l)
    (hall : ∀ b ∈ l, a ≤ b) : l.min? = some a := by
  have hanti : Std.Antisymm ((· : Int) ≤ ·) := ⟨fun h1 h2 => le_antisymm h1 h2⟩
  exact (List.min?_eq_some_iff le_refl min_choice (fun _ _ _ => le_min_iff)).mpr
    ⟨ha, hall⟩

theorem mem_custDates (orders : List Order) (o : Order) (ho : o ∈ orders) :
    o.order_date ∈ custDates orders o.customer_id := by
  apply List.mem_map_of_mem
  exact List.mem_filter.mpr ⟨ho, by simp⟩

theorem custDates_sound (orders : List Order) (c : Nat) (x : Int)
    (hx : x ∈ custDates orders c) :
    ∃ o ∈ orders, o.customer_id = c ∧ o.order_date = x := by
  rcases List.mem_map.mp hx with ⟨o, ho, hdate⟩
  rcases List.mem_filter.mp ho with ⟨hmem, hc⟩
  refine ⟨o, hmem, ?_, hdate⟩
  simpa using hc

theorem first_purchase_le (orders : List Order) (o : Order) (ho : o ∈ orders) :
    first_purchase orders o.customer_id ≤ o.order_date :=
  listMinD_le_mem _ _ (mem_custDates orders o ho)

theorem first_purchase_attained (orders : List Order) (o : Order) (ho : o ∈ orders) :
    ∃ u ∈ orders, u.customer_id = o.customer_id ∧
      u.order_date = first_purchase orders o.customer_id := by
  apply custDates_sound
  apply listMinD_mem
  exact List.ne_nil_of_mem (mem_custDates orders o ho)

theorem mem_activeCustomers_iff (rows : List CohortRow) (cm k : Int) (c : Nat) :
    c ∈ activeCustomers rows cm k ↔
      ∃ r ∈ rows, r.cohort_month = cm ∧ r.cohort_index = k ∧ r.customer_id = c := by
  simp only [activeCustomers, List.mem_toFinset, List.mem_map, List.mem_filter,
    Bool.and_eq_true, beq_iff_eq]
  constructor
  · rintro ⟨r, ⟨hr, hcm, hk⟩, hc⟩
    exact ⟨r, hr, hcm, hk, hc⟩
  · rintro ⟨r, hr, hcm, hk, hc⟩
    exact ⟨r, ⟨hr, hcm, hk⟩, hc⟩

theorem exists_zero_row (M : Int → Int) (orders : List Order) (o : Order)
    (ho : o ∈ orders) :
    ∃ r ∈ cohort_rows M orders,
      r.cohort_month = M (first_purchase orders o.customer_id) ∧
      r.cohort_index = 0 ∧ r.customer_id = o.customer_id := by
  obtain ⟨u, hu, hcid, hdate⟩ := first_purchase_attained orders o ho
  refine ⟨cohortRowOf M orders u, List.mem_map_of_mem _ hu, ?_, ?_, ?_⟩
  · simp [cohortRowOf, hcid]
  · simp [cohortRowOf, hcid, hdate]
  · simp [cohortRowOf, hcid]

theorem activeCustomers_subset (M : Int → Int) (orders : List Order) (cm k : Int) :
    activeCustomers (cohort_rows M orders) cm k ⊆
      activeCustomers (cohort_rows M orders) cm 0 := by
  intro c hc
  rw [mem_activeCustomers_iff] at hc ⊢
  obtain ⟨r, hr, hcm, hk, hcid⟩ := hc
  obtain ⟨o, ho, rfl⟩ := List.mem_map.mp hr
  obtain ⟨r0, hr0, h0cm, h0idx, h0cid⟩ := exists_zero_row M orders o ho
  refine ⟨r0, hr0, ?_, h0idx, ?_⟩
  · rw [h0cm, ← hcm]
    simp [cohortRowOf]
  · rw [h0cid, ← hcid]
    simp [cohortRowOf]

theorem nunique_le_zero (M : Int → Int) (orders : List Order) (cm k : Int) :
    nunique (cohort_rows M orders) cm k ≤ nunique (cohort_rows M orders) cm 0 :=
  Finset.card_le_card (activeCustomers_subset M orders cm k)

theorem cohort_index_nonneg (M : Int → Int) (hM : Monotone M)
    (orders : List Order) (r : CohortRow) (hr : r ∈ cohort_rows M orders) :
    0 ≤ r.cohort_index := by
  obtain ⟨o, ho, rfl⟩ := List.mem_map.mp hr
  have h := hM (first_purchase_le orders o ho)
  simp only [cohortRowOf]
  exact sub_nonneg.mpr h

theorem exists_index_zero (M : Int → Int) (orders : List Order) (h : orders ≠ []) :
    ∃ r ∈ cohort_rows M orders, r.cohort_index = 0 := by
  obtain ⟨o, ho⟩ := List.exists_mem_of_ne_nil orders h
  obtain ⟨r, hr, _, hidx, _⟩ := exists_zero_row M orders o ho
  exact ⟨r, hr, hidx⟩

theorem zeroColD_eq_zero (M : Int → Int) (hM : Monotone M)
    (orders : List Order) (h : orders ≠ []) :
    zeroColD (cohort_rows M orders) = 0 := by
  rw [zeroColD]
  have hmin : ((cohort_rows M orders).map (fun r => r.cohort_index)).min? = some 0 := by
    apply min?_eq_some_of
    · obtain ⟨r, hr, hidx⟩ := exists_index_zero M orders h
      exact List.mem_map.mpr ⟨r, hr, hidx⟩
    · intro b hb
      obtain ⟨r, hr, rfl⟩ := List.mem_map.mp hb
      exact cohort_index_nonneg M hM orders r hr
  rw [hmin]
  rfl

theorem calculate_retention_rows_ok (rows : List CohortRow) (h : rows ≠ []) :
    calculate_retention_rows rows = .ok (mkRetentionResult rows) := by
  cases rows with
  | nil => exact absurd rfl h
  | cons a t => rfl

theorem calculate_retention_fresh (M : Int → Int) (orders : List Order) :
    (CohortAnalysis.calculate_retention M (CohortAnalysis.init orders)).2 =
      calculate_retention_rows (cohort_rows M orders) := rfl

/-- Claim C5: on a fresh engine over a non-empty orders table, the
retention percentage table returned by `calculate_retention` holds exactly
100 in the cohort_index-0 column for every cohort row, because each row is
divided by its own first-column value. -/
theorem c5_retention_index0 (M : Int → Int) (orders : List Order)
    (hM : Monotone M) (cm : Int)
    (hcm : cm ∈ (cohort_rows M orders).map (fun r => r.cohort_month)) :
    (CohortAnalysis.calculate_retention M (CohortAnalysis.init orders)).2 =
      .ok (mkRetentionResult (cohort_rows M orders)) ∧
    (cm, 0, (100 : ℚ)) ∈ (mkRetentionResult (cohort_rows M orders)).retention := by
  obtain ⟨r, hr, hrcm⟩ := List.mem_map.mp hcm
  have hne : cohort_rows M orders ≠ [] := List.ne_nil_of_mem hr
  obtain ⟨o, ho, hro⟩ := List.mem_map.mp hr
  obtain ⟨r0, hr0, h0cm, h0idx, h0cid⟩ := exists_zero_row M orders o ho
  have horders : orders ≠ [] := List.ne_nil_of_mem ho
  have hz : zeroColD (cohort_rows M orders) = 0 := zeroColD_eq_zero M hM orders horders
  have hcm0 : r0.cohort_month = cm := by
    rw [h0cm, ← hrcm, ← hro]
    simp [cohortRowOf]
  have hmemPair : (cm, 0) ∈ presentPairs (cohort_rows M orders) := by
    apply List.mem_dedup.mpr
    apply List.mem_map.mpr
    exact ⟨r0, hr0, by rw [hcm0, h0idx]⟩
  have hcmem : r0.customer_id ∈ activeCustomers (cohort_rows M orders) cm 0 := by
    rw [mem_activeCustomers_iff]
    exact ⟨r0, hr0, hcm0, h0idx, rfl⟩
  have hnz : nunique (cohort_rows M orders) cm 0 ≠ 0 := by
    rw [nunique]
    exact Finset.card_ne_zero_of_mem hcmem
  constructor
  · rw [calculate_retention_fresh]
    exact calculate_retention_rows_ok _ hne
  · rw [mkRetentionResult]
    apply List.mem_map.mpr
    refine ⟨(cm, 0), hmemPair, ?_⟩
    have hval : (100 : ℚ) * (nunique (cohort_rows M orders) cm 0 : ℚ) /
        (nunique (cohort_rows M orders) cm 0 : ℚ) = 100 := by
      rw [mul_div_assoc, div_self, mul_one]
      exact_mod_cast hnz
    simp only [hz]
    rw [hval]

/-- Claim C7: the count of distinct customers of a cohort active at any
cohort index never exceeds the cohort's index-0 count, and every retention
percentage in the table is at most 100. -/
theorem c7_retention_bounded (M : Int → Int) (orders : List Order) (cm k : Int)
    (hM : Monotone M) :
    nunique (cohort_rows M orders) cm k ≤ nunique (cohort_rows M orders) cm 0 ∧
    ∀ e ∈ (mkRetentionResult (cohort_rows M orders)).retention, e.2.2 ≤ 100 := by
  refine ⟨nunique_le_zero M orders cm k, ?_⟩
  intro e he
  rw [mkRetentionResult] at he
  obtain ⟨p, hp, rfl⟩ := List.mem_map.mp he
  obtain ⟨r, hr, -⟩ := List.mem_map.mp (List.mem_dedup.mp hp)
  obtain ⟨o, ho, -⟩ := List.mem_map.mp hr
  have horders : orders ≠ [] := List.ne_nil_of_mem ho
  have hz : zeroColD (cohort_rows M orders) = 0 := zeroColD_eq_zero M hM orders horders
  show 100 * (nunique (cohort_rows M orders) p.1 p.2 : ℚ) /
      (nunique (cohort_rows M orders) p.1 (zeroColD (cohort_rows M orders)) : ℚ) ≤ 100
  rw [hz]
  have hab : nunique (cohort_rows M orders) p.1 p.2 ≤
      nunique (cohort_rows M orders) p.1 0 := nunique_le_zero M orders p.1 p.2
  by_cases hb : nunique (cohort_rows M orders) p.1 0 = 0
  · have ha : nunique (cohort_rows M orders) p.1 p.2 = 0 :=
      Nat.le_zero.mp (hb ▸ hab)
    rw [ha, hb]
    norm_num
  · have hbpos : (0 : ℚ) < (nunique (cohort_rows M orders) p.1 0 : ℚ) := by
      exact_mod_cast Nat.pos_of_ne_zero hb
    rw [div_le_iff₀ hbpos]
    have hcast : (nunique (cohort_rows M orders) p.1 p.2 : ℚ) ≤
        (nunique (cohort_rows M orders) p.1 0 : ℚ) := by exact_mod_cast hab
    nlinarith

/-- The identity month map, used as a concrete instance of the abstract
calendar in witnesses. -/
def idMonth : Int → Int := fun d => d

theorem idMonth_monotone : Monotone idMonth := fun _ _ h => h

/-- A one-customer, one-order orders table used as a concrete witness input. -/
def ordersW1 : List Order :=
  [{ order_id := 1, customer_id := 1, order_date := 0, total_amount := 10 }]

/-- One customer with a first order at month 0 and a repeat order at
month 1, used as a concrete witness input. -/
def ordersW2 : List Order :=
  [{ order_id := 1, customer_id := 1, order_date := 0, total_amount := 10 },
   { order_id := 2, customer_id := 1, order_date := 1, total_amount := 20 }]

theorem c5_witness :
    (CohortAnalysis.calculate_retention idMonth (CohortAnalysis.init ordersW1)).2 =
      .ok (mkRetentionResult (cohort_rows idMonth ordersW1)) ∧
    ((0 : Int), (0 : Int), (100 : ℚ)) ∈
      (mkRetentionResult (cohort_rows idMonth ordersW1)).retention :=
  c5_retention_index0 idMonth ordersW1 idMonth_monotone 0 (by
    have h : (cohort_rows idMonth ordersW1).map (fun r => r.cohort_month) = [0] := by
      with_unfolding_all rfl
    rw [h]
    exact List.mem_cons_self 0 [])

theorem c7_witness :
    nunique (cohort_rows idMonth ordersW1) 0 0 ≤
      nunique (cohort_rows idMonth ordersW1) 0 0 ∧
    ∀ e ∈ (mkRetentionResult (cohort_rows idMonth ordersW1)).retention,
      e.2.2 ≤ 100 :=
  c7_retention_bounded idMonth ordersW1 0 0 idMonth_monotone

/-! ### Retention summary lemmas (claim C9) -/

theorem hasIndex_iff (M : Int → Int) (orders : List Order) (k : Int) :
    hasIndex (cohort_rows M orders) k = true ↔
      ∃ o ∈ orders, M o.order_date = M (first_purchase orders o.customer_id) + k := by
  rw [hasIndex, List.any_eq_true]
  constructor
  · rintro ⟨r, hr, hk⟩
    obtain ⟨o, ho, rfl⟩ := List.mem_map.mp hr
    refine ⟨o, ho, ?_⟩
    have hidx : (cohortRowOf M orders o).cohort_index = k := by simpa using hk
    simp only [cohortRowOf] at hidx
    linarith
  · rintro ⟨o, ho, heq⟩
    refine ⟨cohortRowOf M orders o, List.mem_map_of_mem _ ho, ?_⟩
    simp [cohortRowOf, heq]

theorem hasIndex_ne_nil (rows : List CohortRow) (k : Int)
    (h : hasIndex rows k = true) : rows ≠ [] := by
  rw [hasIndex, List.any_eq_true] at h
  obtain ⟨r, hr, -⟩ := h
  exact List.ne_nil_of_mem hr

theorem orders_ne_nil_of_rows (M : Int → Int) (orders : List Order)
    (h : cohort_rows M orders ≠ []) : orders ≠ [] := by
  intro heq
  apply h
  rw [heq, cohort_rows]
  rfl

theorem hasIndex_zero (M : Int → Int) (orders : List Order) (h : orders ≠ []) :
    hasIndex (cohort_rows M orders) 0 = true := by
  rw [hasIndex, List.any_eq_true]
  obtain ⟨r, hr, hidx⟩ := exists_index_zero M orders h
  exact ⟨r, hr, by simp [hidx]⟩

theorem grs_nil : get_retention_summary_rows [] = .error errEmptyPivot := rfl

theorem grs_no_col1 (rows : List CohortRow) (hne : rows ≠ [])
    (h1 : hasIndex rows 1 = false) :
    get_retention_summary_rows rows = .error errKeyOne := by
  rw [get_retention_summary_rows, calculate_retention_rows_ok rows hne]
  simp [h1]

theorem grs_ok (rows : List CohortRow) (hne : rows ≠ [])
    (h1 : hasIndex rows 1 = true) (h0 : hasIndex rows 0 = true) :
    get_retention_summary_rows rows = .ok
      { month_1_retention := colMeanRetention rows (zeroColD rows) 1
        month_3_retention :=
          if hasIndex rows 3 = true then
            some (colMeanRetention rows (zeroColD rows) 3) else none
        month_6_retention :=
          if hasIndex rows 6 = true then
            some (colMeanRetention rows (zeroColD rows) 6) else none
        month_12_retention :=
          if hasIndex rows 12 = true then
            some (colMeanRetention rows (zeroColD rows) 12) else none
        avg_cohort_size := colMeanSize rows 0 } := by
  rw [get_retention_summary_rows, calculate_retention_rows_ok rows hne]
  simp [h1, h0]

theorem get_retention_summary_fresh (M : Int → Int) (orders : List Order) :
    (CohortAnalysis.get_retention_summary M (CohortAnalysis.init orders)).2 =
      get_retention_summary_rows (cohort_rows M orders) := rfl

/-- Claim C9: `get_retention_summary` returns None for the month-3/6/12
entries when no cohort has reached that index (guarded accesses), but the
month-1 column is accessed unconditionally: the call succeeds exactly when
some customer placed an order whose calendar month is one month after
their first order's month, and fails otherwise. -/
theorem c9_summary_month1_unguarded (M : Int → Int) (orders : List Order) :
    ((∃ s, (CohortAnalysis.get_retention_summary M (CohortAnalysis.init orders)).2 =
        .ok s) ↔
      ∃ o ∈ orders, M o.order_date = M (first_purchase orders o.customer_id) + 1) ∧
    (∀ s, (CohortAnalysis.get_retention_summary M (CohortAnalysis.init orders)).2 =
        .ok s →
      ((s.month_3_retention = none ↔
        ¬ ∃ o ∈ orders, M o.order_date = M (first_purchase orders o.customer_id) + 3) ∧
       (s.month_6_retention = none ↔
        ¬ ∃ o ∈ orders, M o.order_date = M (first_purchase orders o.customer_id) + 6) ∧
       (s.month_12_retention = none ↔
        ¬ ∃ o ∈ orders, M o.order_date = M (first_purchase orders o.customer_id) + 12))) := by
  have hguard : ∀ (j : Int) (c : ℚ),
      ((if hasIndex (cohort_rows M orders) j = true then some c else none) = none ↔
        ¬ ∃ o ∈ orders, M o.order_date = M (first_purchase orders o.customer_id) + j) := by
    intro j c
    by_cases hj : hasIndex (cohort_rows M orders) j = true
    · rw [if_pos hj]
      exact iff_of_false (by simp) (not_not_intro ((hasIndex_iff M orders j).mp hj))
    · rw [if_neg hj]
      exact iff_of_true rfl (fun hex => hj ((hasIndex_iff M orders j).mpr hex))
  constructor
  · constructor
    · rintro ⟨s, hs⟩
      rw [get_retention_summary_fresh] at hs
      by_cases h1 : hasIndex (cohort_rows M orders) 1 = true
      · exact (hasIndex_iff M orders 1).mp h1
      · exfalso
        cases hrows : cohort_rows M orders with
        | nil =>
          rw [hrows, grs_nil] at hs
          cases hs
        | cons a t =>
          have hne : cohort_rows M orders ≠ [] := by rw [hrows]; simp
          rw [grs_no_col1 _ hne (Bool.eq_false_iff.mpr (fun hc => h1 hc))] at hs
          cases hs
    · rintro ⟨o, ho, heq⟩
      have h1 : hasIndex (cohort_rows M orders) 1 = true :=
        (hasIndex_iff M orders 1).mpr ⟨o, ho, heq⟩
      have hne := hasIndex_ne_nil _ _ h1
      have h0 := hasIndex_zero M orders (orders_ne_nil_of_rows M orders hne)
      exact ⟨_, by rw [get_retention_summary_fresh, grs_ok _ hne h1 h0]⟩
  · intro s hs
    rw [get_retention_summary_fresh] at hs
    by_cases h1 : hasIndex (cohort_rows M orders) 1 = true
    · have hne := hasIndex_ne_nil _ _ h1
      have h0 := hasIndex_zero M orders (orders_ne_nil_of_rows M orders hne)
      rw [grs_ok _ hne h1 h0] at hs
      injection hs with hs'
      subst hs'
      exact ⟨hguard 3 _, hguard 6 _, hguard 12 _⟩
    · exfalso
      cases hrows : cohort_rows M orders with
      | nil =>
        rw [hrows, grs_nil] at hs
        cases hs
      | cons a t =>
        have hne : cohort_rows M orders ≠ [] := by rw [hrows]; simp
        rw [grs_no_col1 _ hne (Bool.eq_false_iff.mpr (fun hc => h1 hc))] at hs
        cases hs

theorem c9_witness :
    ∃ s, (CohortAnalysis.get_retention_summary idMonth (CohortAnalysis.init ordersW2)).2 =
      .ok s :=
  (c9_summary_month1_unguarded idMonth ordersW2).1.mpr
    ⟨{ order_id := 2, customer_id := 1, order_date := 1, total_amount := 20 },
      List.mem_cons_of_mem _ (List.mem_cons_self _ _),
      by with_unfolding_all rfl⟩

/-! ## RFM engine (rfm.analysis.py:19-54)

Scores come from `pd.qcut(..., q=5, labels=..., duplicates='drop')`.
pandas computes 6 linear-interpolation quantile edges, drops duplicate
edges (`np.unique`), and then checks the explicit label list against the
resulting bin count, raising `ValueError` when edges were dropped. -/

/-- The orders of one customer (the groupby group of line 28). -/
def custOrders (orders : List Order) (c : Nat) : List Order :=
  orders.filter (fun o => o.customer_id == c)

/-- The recency aggregate `(reference_date - x.max()).days` (line 29). -/
def recencyOf (orders : List Order) (refDate : Int) (c : Nat) : Int :=
  refDate - listMaxD (custDates orders c)

/-- The frequency aggregate: the group's order count (line 30). -/
def frequencyOf (orders : List Order) (c : Nat) : Nat :=
  (custOrders orders c).length

/-- The monetary aggregate: the group's summed order totals (line 31). -/
def monetaryOf (orders : List Order) (c : Nat) : ℚ :=
  ((custOrders orders c).map (fun o => o.total_amount)).sum

/-- The default reference date
`pd.to_datetime(self.orders['order_date']).max()` (line 22). -/
def defaultReference (orders : List Order) : Int :=
  listMaxD (orders.map (fun o => o.order_date))

/-- The groupby keys: pandas sorts the distinct customer ids ascending. -/
def uniqueCustomers (orders : List Order) : List Nat :=
  ((orders.map (fun o => o.customer_id)).dedup).mergeSort (fun a b => Nat.ble a b)

/-- `Series.rank(method='first')` (lines 38-39): the rank of entry `i` is
one plus the number of strictly smaller entries plus the number of equal
entries occurring earlier. -/
def rank_first (xs : List ℚ) : List ℚ :=
  (List.range xs.length).map (fun i =>
    (1 : ℚ) + (((List.range xs.length).filter (fun j =>
      decide (xs.getD j 0 < xs.getD i 0 ∨
        (xs.getD j 0 = xs.getD i 0 ∧ j < i)))).length : ℚ))

/-- The linear-interpolation quantile of the sorted data at fraction
`i / q` (pandas' default interpolation): with `h = i·(n-1)/q`, the value is
`x⌊h⌋ + (h - ⌊h⌋)·(x⌊h⌋₊₁ - x⌊h⌋)`. -/
def quantileAt (sorted : List ℚ) (i q : Nat) : ℚ :=
  let pos := (i * (sorted.length - 1)) / q
  let frac : ℚ := (((i * (sorted.length - 1)) % q : Nat) : ℚ) / (q : ℚ)
  let lo := sorted.getD pos 0
  let hi := sorted.getD (pos + 1) lo
  lo + frac * (hi - lo)

/-- The `q+1` quantile edges of the data (the quantiles at
`np.linspace(0, 1, q+1)` over the sorted values). -/
def quantileBins (xs : List ℚ) (q : Nat) : List ℚ :=
  (List.range (q + 1)).map (fun i =>
    quantileAt (xs.mergeSort (fun a b => decide (a ≤ b))) i q)

/-- `np.unique` on the (already nondecreasing) edge list: drop adjacent
duplicate edges. -/
def dedupSorted : List ℚ → List ℚ
  | [] => []
  | [x] => [x]
  | x :: y :: rest =>
    if x = y then dedupSorted (y :: rest) else x :: dedupSorted (y :: rest)

def errBinLabels : String :=
  "ValueError: Bin labels must be one fewer than the number of bin edges"

/-- Bucket assignment over the retained edges (right-closed bins with the
lowest edge included): the bucket of `v` is the number of interior edges
strictly below `v`, and its label is looked up in the label list. -/
def assignBucket (bins : List ℚ) (labels : List Int) (v : ℚ) : Int :=
  labels.getD (((bins.drop 1).dropLast).countP (fun e => decide (e < v))) 0

/-- `pd.qcut(xs, 5, labels=labels, duplicates='drop')` followed by
`.astype(int)` (rfm.analysis.py:37-44): when dropping duplicate edges
leaves fewer bins than labels, pandas raises. -/
def qcut5 (xs : List ℚ) (labels : List Int) : Except String (List Int) :=
  let bins := dedupSorted (quantileBins xs 5)
  if labels.length = bins.length - 1 then
    .ok (xs.map (assignBucket bins labels))
  else .error errBinLabels

/-- One row of the RFM result table (rfm.analysis.py:28-53), after the left
merge with the customers table (unmatched customers get nulls). -/
structure RfmRecord where
  customer_id : Nat
  recency : Int
  frequency : Nat
  monetary : ℚ
  r_score : Int
  f_score : Int
  m_score : Int
  rfm_segment : String
  customer_name : Option String
  country : Option String
deriving DecidableEq, Repr

/-- `RFMAnalysis.calculate_rfm` as a pure function over the tables
(rfm.analysis.py:19-54): per-customer aggregates, the three qcut scores
(recency labelled 5..1, frequency and monetary rank-broken and labelled
1..5), the segment cascade, and the left join of customer name/country. -/
def calculate_rfm_table (orders : List Order) (customers : List Customer)
    (reference_date : Option Int) : Except String (List RfmRecord) :=
  let refDate := reference_date.getD (defaultReference orders)
  let custs := uniqueCustomers orders
  match qcut5 ((custs.map (fun c => recencyOf orders refDate c)).map
      (fun r => (r : ℚ))) [5, 4, 3, 2, 1] with
  | .error e => .error e
  | .ok rs =>
    match qcut5 (rank_first (custs.map (fun c => (frequencyOf orders c : ℚ))))
        [1, 2, 3, 4, 5] with
    | .error e => .error e
    | .ok fs =>
      match qcut5 (rank_first (custs.map (fun c => monetaryOf orders c)))
          [1, 2, 3, 4, 5] with
      | .error e => .error e
      | .ok ms =>
        .ok ((List.range custs.length).map (fun i =>
          let c := custs.getD i 0
          { customer_id := c
            recency := recencyOf orders refDate c
            frequency := frequencyOf orders c
            monetary := monetaryOf orders c
            r_score := rs.getD i 0
            f_score := fs.getD i 0
            m_score := ms.getD i 0
            rfm_segment := _assign_segment (rs.getD i 0) (fs.getD i 0) (ms.getD i 0)
            customer_name := (customers.find? (fun u => u.customer_id == c)).map
              (fun u => u.customer_name)
            country := (customers.find? (fun u => u.customer_id == c)).map
              (fun u => u.country) }))

/-- One row of `get_segment_summary` (rfm.analysis.py:80-91). -/
structure SegmentSummaryRow where
  rfm_segment : String
  customer_count : Nat
  avg_recency : ℚ
  avg_frequency : ℚ
  avg_monetary : ℚ
  total_revenue : ℚ
  revenue_percentage : ℚ
deriving DecidableEq, Repr

/-- The aggregation of `get_segment_summary` (rfm.analysis.py:80-91):
per-segment count, rounded means, rounded revenue sum, and each segment's
rounded share of the summed per-segment revenue. -/
def segment_summary (data : List RfmRecord) : List SegmentSummaryRow :=
  let segs := (data.map (fun r => r.rfm_segment)).dedup
  let base : List SegmentSummaryRow := segs.map (fun s =>
    let grp := data.filter (fun r => r.rfm_segment == s)
    { rfm_segment := s
      customer_count := grp.length
      avg_recency := round2 (((grp.map (fun r => (r.recency : ℚ))).sum) / (grp.length : ℚ))
      avg_frequency := round2 (((grp.map (fun r => (r.frequency : ℚ))).sum) / (grp.length : ℚ))
      avg_monetary := round2 (((grp.map (fun r => r.monetary)).sum) / (grp.length : ℚ))
      total_revenue := round2 ((grp.map (fun r => r.monetary)).sum)
      revenue_percentage := (0 : ℚ) })
  base.map (fun row =>
    let pct := round2 (row.total_revenue / ((base.map (fun r => r.total_revenue)).sum) * 100)
    { row with revenue_percentage := pct })

/-- The mutable state of an `RFMAnalysis` object: the (copied) input
tables and the cached `rfm_data` (rfm.analysis.py:13-17). -/
structure RFMAnalysisState where
  orders : List Order
  customers : List Customer
  rfm_data : Option (List RfmRecord)
deriving DecidableEq, Repr

namespace RFMAnalysis

/-- `RFMAnalysis.__init__`: stores copies of the tables and sets
`rfm_data = None`. -/
def init (orders : List Order) (customers : List Customer) : RFMAnalysisState :=
  { orders := orders, customers := customers, rfm_data := none }

/-- `RFMAnalysis.calculate_rfm` as a state method: on success the result
table is cached in `rfm_data`; a qcut failure propagates and leaves
`rfm_data` untouched. -/
def calculate_rfm (st : RFMAnalysisState) (reference_date : Option Int) :
    RFMAnalysisState × Except String (List RfmRecord) :=
  match calculate_rfm_table st.orders st.customers reference_date with
  | .ok recs => ({ st with rfm_data := some recs }, .ok recs)
  | .error e => (st, .error e)

/-- `RFMAnalysis.get_segment_summary` (rfm.analysis.py:75-93): raises
`ValueError` when `calculate_rfm` has not been run. -/
def get_segment_summary (st : RFMAnalysisState) :
    Except String (List SegmentSummaryRow) :=
  match st.rfm_data with
  | none => .error errRunRfmFirst
  | some data => .ok (segment_summary data)

/-- `RFMAnalysis.export_results` (rfm.analysis.py:142-148): raises
`ValueError` when `calculate_rfm` has not been run; the returned table is
what is written to CSV. -/
def export_results (st : RFMAnalysisState) : Except String (List RfmRecord) :=
  match st.rfm_data with
  | none => .error errRunRfmFirst
  | some data => .ok data

end RFMAnalysis

theorem foldl_max_mem (l : List Int) (a : Int) :
    l.foldl max a = a ∨ l.foldl max a ∈ l := by
  induction l generalizing a with
  | nil => exact Or.inl rfl
  | cons x xs ih =>
    rcases ih (max a x) with h | h
    · rcases max_cases a x with ⟨he, _⟩ | ⟨he, _⟩
      · left
        rw [List.foldl_cons, h, he]
      · right
        rw [List.foldl_cons, h, he]
        exact List.mem_cons_self x xs
    · right
      exact List.mem_cons_of_mem x h

theorem listMaxD_mem (l : List Int) (hl : l ≠ []) : listMaxD l ∈ l := by
  cases l with
  | nil => exact absurd rfl hl
  | cons d ds =>
    rcases foldl_max_mem ds d with h | h
    · rw [listMaxD, h]
      exact List.mem_cons_self d ds
    · exact List.mem_cons_of_mem d h

/-- Degenerate quantile input: five customers with one order each, all on
the same date, so every recency is 0 and the six recency quantile edges
all coincide. -/
def ordersDeg : List Order :=
  [ { order_id := 1, customer_id := 1, order_date := 100, total_amount := 10 },
    { order_id := 2, customer_id := 2, order_date := 100, total_amount := 20 },
    { order_id := 3, customer_id := 3, order_date := 100, total_amount := 30 },
    { order_id := 4, customer_id := 4, order_date := 100, total_amount := 40 },
    { order_id := 5, customer_id := 5, order_date := 100, total_amount := 50 } ]

/-- Claim C2 is violated by the code: on the degenerate input all recency
quantile edges coincide, `duplicates='drop'` collapses them to a single
edge, and pandas then raises because the fixed five-element label list no
longer matches the bin count — `calculate_rfm` fails instead of collapsing
to fewer score buckets. -/
theorem c2_qcut_degenerate_raises :
    (RFMAnalysis.calculate_rfm (RFMAnalysis.init ordersDeg []) none).2 =
      .error errBinLabels := by
  with_unfolding_all rfl

/-- Claim C4 counterexample: a fresh `CohortAnalysis` (cohort_data is None)
does not signal a usage-order error when `calculate_retention` is called
before `create_cohorts`: it silently computes the cohorts and returns the
full retention result. -/
theorem c4_counterexample :
    (CohortAnalysis.init ordersW2).cohort_data = none ∧
    (CohortAnalysis.calculate_retention idMonth (CohortAnalysis.init ordersW2)).2 =
      .ok (mkRetentionResult (cohort_rows idMonth ordersW2)) := by
  refine ⟨rfl, ?_⟩
  rw [calculate_retention_fresh]
  apply calculate_retention_rows_ok
  exact of_decide_eq_true (by with_unfolding_all rfl)

/-- Claim C4 (amended): `RFMAnalysis.get_segment_summary` and
`RFMAnalysis.export_results` fail fast with a usage-order `ValueError`
before `calculate_rfm` has run, but every `CohortAnalysis` consumer method
called before `create_cohorts` silently runs `create_cohorts` itself and
returns the full computed result instead of failing. -/
theorem c4_fail_fast_vs_lazy (M : Int → Int) (stR : RFMAnalysisState)
    (stC : CohortAnalysisState) (hR : stR.rfm_data = none)
    (hC : stC.cohort_data = none) :
    RFMAnalysis.get_segment_summary stR = .error errRunRfmFirst ∧
    RFMAnalysis.export_results stR = .error errRunRfmFirst ∧
    CohortAnalysis.calculate_retention M stC =
      ((CohortAnalysis.create_cohorts M stC).1,
        calculate_retention_rows (cohort_rows M stC.orders)) ∧
    CohortAnalysis.calculate_cohort_metrics M stC =
      ((CohortAnalysis.create_cohorts M stC).1,
        cohort_metrics_rows (cohort_rows M stC.orders)) ∧
    CohortAnalysis.get_retention_summary M stC =
      ((CohortAnalysis.create_cohorts M stC).1,
        get_retention_summary_rows (cohort_rows M stC.orders)) ∧
    CohortAnalysis.export_results M stC =
      ((CohortAnalysis.create_cohorts M stC).1, cohort_rows M stC.orders) := by
  refine ⟨?_, ?_, ?_, ?_, ?_, ?_⟩
  · simp [RFMAnalysis.get_segment_summary, hR]
  · simp [RFMAnalysis.export_results, hR]
  · simp [CohortAnalysis.calculate_retention, CohortAnalysis.ensure_cohorts, hC,
      CohortAnalysis.create_cohorts]
  · simp [CohortAnalysis.calculate_cohort_metrics, CohortAnalysis.ensure_cohorts, hC,
      CohortAnalysis.create_cohorts]
  · simp [CohortAnalysis.get_retention_summary, CohortAnalysis.ensure_cohorts, hC,
      CohortAnalysis.create_cohorts]
  · simp [CohortAnalysis.export_results, CohortAnalysis.ensure_cohorts, hC,
      CohortAnalysis.create_cohorts]

theorem c4_witness :
    RFMAnalysis.get_segment_summary (RFMAnalysis.init ordersW1 []) =
      .error errRunRfmFirst ∧
    RFMAnalysis.export_results (RFMAnalysis.init ordersW1 []) =
      .error errRunRfmFirst ∧
    CohortAnalysis.calculate_retention idMonth (CohortAnalysis.init ordersW1) =
      ((CohortAnalysis.create_cohorts idMonth (CohortAnalysis.init ordersW1)).1,
        calculate_retention_rows
          (cohort_rows idMonth (CohortAnalysis.init ordersW1).orders)) ∧
    CohortAnalysis.calculate_cohort_metrics idMonth (CohortAnalysis.init ordersW1) =
      ((CohortAnalysis.create_cohorts idMonth (CohortAnalysis.init ordersW1)).1,
        cohort_metrics_rows
          (cohort_rows idMonth (CohortAnalysis.init ordersW1).orders)) ∧
    CohortAnalysis.get_retention_summary idMonth (CohortAnalysis.init ordersW1) =
      ((CohortAnalysis.create_cohorts idMonth (CohortAnalysis.init ordersW1)).1,
        get_retention_summary_rows
          (cohort_rows idMonth (CohortAnalysis.init ordersW1).orders)) ∧
    CohortAnalysis.export_results idMonth (CohortAnalysis.init ordersW1) =
      ((CohortAnalysis.create_cohorts idMonth (CohortAnalysis.init ordersW1)).1,
        cohort_rows idMonth (CohortAnalysis.init ordersW1).orders) :=
  c4_fail_fast_vs_lazy idMonth (RFMAnalysis.init ordersW1 [])
    (CohortAnalysis.init ordersW1) rfl rfl

theorem getD_mem_of_lt {α : Type} (l : List α) (i : Nat) (d : α)
    (h : i < l.length) : l.getD i d ∈ l := by
  rw [List.getD_eq_getElem?_getD, List.getElem?_eq_getElem h]
  exact List.getElem_mem h

theorem calculate_rfm_table_shape (orders : List Order)
    (customers : List Customer) (reference_date : Option Int)
    (recs : List RfmRecord)
    (h : calculate_rfm_table orders customers reference_date = .ok recs)
    (r : RfmRecord) (hr : r ∈ recs) :
    ∃ c ∈ uniqueCustomers orders, r.customer_id = c ∧
      r.recency = recencyOf orders
        (reference_date.getD (defaultReference orders)) c ∧
      r.frequency = frequencyOf orders c ∧
      r.monetary = monetaryOf orders c := by
  rw [calculate_rfm_table] at h
  split at h
  · exact absurd h (by simp)
  · split at h
    · exact absurd h (by simp)
    · split at h
      · exact absurd h (by simp)
      · rw [Except.ok.injEq] at h
        subst h
        obtain ⟨i, hi, rfl⟩ := List.mem_map.mp hr
        have hilt : i < (uniqueCustomers orders).length := List.mem_range.mp hi
        exact ⟨(uniqueCustomers orders).getD i 0,
          getD_mem_of_lt _ i 0 hilt, rfl, rfl, rfl, rfl⟩

/-- Claim C6: for every record of a successful default-reference
`calculate_rfm` run, recency is non-negative and equals the reference date
(the global maximum order date) minus the customer's most recent order
date, frequency is the customer's order count, and monetary is the sum of
the customer's order totals. -/
theorem c6_rfm_metrics (orders : List Order) (customers : List Customer)
    (recs : List RfmRecord)
    (hok : (RFMAnalysis.calculate_rfm (RFMAnalysis.init orders customers) none).2 =
      .ok recs)
    (r : RfmRecord) (hr : r ∈ recs) :
    0 ≤ r.recency ∧
    (∃ d ∈ custDates orders r.customer_id,
      (∀ e ∈ custDates orders r.customer_id, e ≤ d) ∧
      r.recency = defaultReference orders - d) ∧
    r.frequency = orders.countP (fun o => o.customer_id == r.customer_id) ∧
    r.monetary = ((orders.filter (fun o => o.customer_id == r.customer_id)).map
      (fun o => o.total_amount)).sum := by
  have htab : calculate_rfm_table orders customers none = .ok recs := by
    revert hok
    cases hx : calculate_rfm_table orders customers none with
    | ok l =>
      intro hok
      rw [show (RFMAnalysis.calculate_rfm (RFMAnalysis.init orders customers) none) =
        ({ orders := orders, customers := customers, rfm_data := some l }, .ok l) from by
          rw [RFMAnalysis.calculate_rfm]
          simp [RFMAnalysis.init, hx]] at hok
      exact hok
    | error e =>
      intro hok
      rw [show (RFMAnalysis.calculate_rfm (RFMAnalysis.init orders customers) none) =
        ({ orders := orders, customers := customers, rfm_data := none }, .error e) from by
          rw [RFMAnalysis.calculate_rfm]
          simp [RFMAnalysis.init, hx]] at hok
      exact absurd hok (by simp)
  obtain ⟨c, hc, hcid, hrec, hfreq, hmon⟩ :=
    calculate_rfm_table_shape orders customers none recs htab r hr
  have hcmem : ∃ o ∈ orders, o.customer_id = c := by
    have h1 : c ∈ (orders.map (fun o => o.customer_id)).dedup :=
      List.mem_mergeSort.mp hc
    obtain ⟨o, ho, hoc⟩ := List.mem_map.mp (List.mem_dedup.mp h1)
    exact ⟨o, ho, hoc⟩
  obtain ⟨o, ho, hoc⟩ := hcmem
  have hdmemo : o.order_date ∈ custDates orders c := by
    have := mem_custDates orders o ho
    rwa [hoc] at this
  have hdne : custDates orders c ≠ [] := List.ne_nil_of_mem hdmemo
  have hdmem : listMaxD (custDates orders c) ∈ custDates orders c :=
    listMaxD_mem _ hdne
  have hglobal : listMaxD (custDates orders c) ∈ orders.map (fun u => u.order_date) := by
    obtain ⟨u, hu, huc, hud⟩ := custDates_sound orders c _ hdmem
    exact List.mem_map.mpr ⟨u, hu, hud⟩
  have hle : listMaxD (custDates orders c) ≤ defaultReference orders :=
    mem_le_listMaxD _ _ hglobal
  refine ⟨?_, ?_, ?_, ?_⟩
  · rw [hrec]
    show 0 ≤ recencyOf orders (defaultReference orders) c
    rw [recencyOf]
    omega
  · rw [hcid]
    refine ⟨listMaxD (custDates orders c), hdmem, ?_, ?_⟩
    · intro e he
      exact mem_le_listMaxD _ e he
    · rw [hrec]
      rfl
  · rw [hcid, hfreq, frequencyOf, custOrders, List.countP_eq_length_filter]
  · rw [hcid, hmon, monetaryOf, custOrders]

/-- Five customers with one order each on distinct dates: a small input on
which `calculate_rfm` succeeds (all quantile edges distinct). -/
def ordersW5 : List Order :=
  [ { order_id := 1, customer_id := 1, order_date := 0, total_amount := 10 },
    { order_id := 2, customer_id := 2, order_date := 1, total_amount := 20 },
    { order_id := 3, customer_id := 3, order_date := 2, total_amount := 30 },
    { order_id := 4, customer_id := 4, order_date := 3, total_amount := 40 },
    { order_id := 5, customer_id := 5, order_date := 4, total_amount := 50 } ]

/-- A placeholder record used only as the default of a safe list lookup. -/
def dummyRfmRecord : RfmRecord :=
  { customer_id := 0, recency := 0, frequency := 0, monetary := 0,
    r_score := 0, f_score := 0, m_score := 0, rfm_segment := "",
    customer_name := none, country := none }

/-- The records of the successful `calculate_rfm` run on `ordersW5`. -/
def rfmW5 : List RfmRecord :=
  match (RFMAnalysis.calculate_rfm (RFMAnalysis.init ordersW5 []) none).2 with
  | .ok recs => recs
  | .error _ => []

theorem c6_witness :
    0 ≤ (rfmW5.getD 0 dummyRfmRecord).recency ∧
    (∃ d ∈ custDates ordersW5 (rfmW5.getD 0 dummyRfmRecord).customer_id,
      (∀ e ∈ custDates ordersW5 (rfmW5.getD 0 dummyRfmRecord).customer_id, e ≤ d) ∧
      (rfmW5.getD 0 dummyRfmRecord).recency = defaultReference ordersW5 - d) ∧
    (rfmW5.getD 0 dummyRfmRecord).frequency =
      ordersW5.countP (fun o =>
        o.customer_id == (rfmW5.getD 0 dummyRfmRecord).customer_id) ∧
    (rfmW5.getD 0 dummyRfmRecord).monetary =
      ((ordersW5.filter (fun o =>
        o.customer_id == (rfmW5.getD 0 dummyRfmRecord).customer_id)).map
          (fun o => o.total_amount)).sum :=
  c6_rfm_metrics ordersW5 [] rfmW5 (by with_unfolding_all rfl)
    (rfmW5.getD 0 dummyRfmRecord) (of_decide_eq_true (by with_unfolding_all rfl))

/-! ## Frame-effect model (claim C10)

DataFrames live in a store of cells addressed by references; the caller
passes references to its tables, `df.copy()` allocates a fresh cell with
the same contents (pandas copies deeply by default), and in-place column
assignment writes the owning object's cell.  The one in-place mutation in
either class is the `order_date` datetime conversion (rfm.analysis.py:25,
cohort_analysis.py:15), modelled by the `datesConverted` flag. -/

/-- A heap cell holding an orders DataFrame: its rows plus whether the
`order_date` column has been converted to datetime in place. -/
structure OrdersFrame where
  rows : List Order
  datesConverted : Bool
deriving DecidableEq, Repr

/-- `df.copy()` / allocation of a fresh cell; returns the new store and
the fresh reference. -/
def allocFrame (s : List OrdersFrame) (f : OrdersFrame) :
    List OrdersFrame × Nat :=
  (s ++ [f], s.length)

def readFrame (s : List OrdersFrame) (i : Nat) : OrdersFrame :=
  s.getD i { rows := [], datesConverted := false }

def writeFrame (s : List OrdersFrame) (i : Nat) (f : OrdersFrame) :
    List OrdersFrame :=
  s.set i f

def allocCust (s : List (List Customer)) (t : List Customer) :
    List (List Customer) × Nat :=
  (s ++ [t], s.length)

def readCust (s : List (List Customer)) (i : Nat) : List Customer :=
  s.getD i []

/-- An `RFMAnalysis` object at the heap level: references to its own
(copied) frames plus the cached result. -/
structure RFMObj where
  ordersRef : Nat
  customersRef : Nat
  rfm_data : Option (List RfmRecord)
deriving Repr

/-- `RFMAnalysis.__init__` at the heap level (rfm.analysis.py:13-17):
`orders_df.copy()` and `customers_df.copy()` allocate fresh cells; the
caller's cells are only read. -/
def rfm_init_heap (so : List OrdersFrame) (sc : List (List Customer))
    (oRef cRef : Nat) : List OrdersFrame × List (List Customer) × RFMObj :=
  let ao := allocFrame so (readFrame so oRef)
  let ac := allocCust sc (readCust sc cRef)
  (ao.1, ac.1, { ordersRef := ao.2, customersRef := ac.2, rfm_data := none })

/-- `RFMAnalysis.calculate_rfm` at the heap level (rfm.analysis.py:19-54):
line 25 writes the converted `order_date` column in place, but on the
object's own frame; everything else builds new frames. -/
def rfm_calculate_heap (so : List OrdersFrame) (sc : List (List Customer))
    (obj : RFMObj) (reference_date : Option Int) :
    List OrdersFrame × RFMObj × Except String (List RfmRecord) :=
  let f := readFrame so obj.ordersRef
  let so1 := writeFrame so obj.ordersRef { f with datesConverted := true }
  match calculate_rfm_table f.rows (readCust sc obj.customersRef) reference_date with
  | .ok recs => (so1, { obj with rfm_data := some recs }, .ok recs)
  | .error e => (so1, obj, .error e)

/-- A `CohortAnalysis` object at the heap level. -/
structure CohortObj where
  ordersRef : Nat
  cohort_data : Option (List CohortRow)
deriving Repr

/-- `CohortAnalysis.__init__` at the heap level (cohort_analysis.py:12-16):
copy the orders frame, then convert the date column in place on the copy. -/
def cohort_init_heap (so : List OrdersFrame) (oRef : Nat) :
    List OrdersFrame × CohortObj :=
  let ao := allocFrame so (readFrame so oRef)
  let f := readFrame ao.1 ao.2
  (writeFrame ao.1 ao.2 { f with datesConverted := true },
    { ordersRef := ao.2, cohort_data := none })

/-- `CohortAnalysis.create_cohorts` at the heap level
(cohort_analysis.py:18-37): builds new frames from the object's orders
cell; no store cell is written. -/
def cohort_create_heap (M : Int → Int) (so : List OrdersFrame)
    (obj : CohortObj) : List OrdersFrame × CohortObj × List CohortRow :=
  let rows := cohort_rows M (readFrame so obj.ordersRef).rows
  (so, { obj with cohort_data := some rows }, rows)

theorem readFrame_alloc_of_lt (s : List OrdersFrame) (f : OrdersFrame)
    (i : Nat) (h : i < s.length) :
    readFrame (allocFrame s f).1 i = readFrame s i := by
  simp only [readFrame, allocFrame, List.getD_eq_getElem?_getD]
  rw [List.getElem?_append_left h]

theorem readCust_alloc_of_lt (s : List (List Customer)) (t : List Customer)
    (i : Nat) (h : i < s.length) :
    readCust (allocCust s t).1 i = readCust s i := by
  simp only [readCust, allocCust, List.getD_eq_getElem?_getD]
  rw [List.getElem?_append_left h]

theorem readFrame_write_ne (s : List OrdersFrame) (i j : Nat)
    (f : OrdersFrame) (h : j ≠ i) :
    readFrame (writeFrame s j f) i = readFrame s i := by
  rw [readFrame, readFrame, writeFrame]
  rw [List.getD_eq_getElem?_getD, List.getD_eq_getElem?_getD,
    List.getElem?_set_ne h]

/-- Claim C10: neither engine ever mutates the caller's input DataFrames:
both constructors copy, so the in-place datetime conversion hits only the
internal copies, and after construction plus the main computation the
caller's cells are unchanged. -/
theorem c10_no_caller_mutation (so : List OrdersFrame)
    (sc : List (List Customer)) (oRef cRef : Nat)
    (ho : oRef < so.length) (hc : cRef < sc.length)
    (M : Int → Int) (reference_date : Option Int) :
    (readFrame (rfm_init_heap so sc oRef cRef).1 oRef = readFrame so oRef ∧
     readCust (rfm_init_heap so sc oRef cRef).2.1 cRef = readCust sc cRef ∧
     readFrame (rfm_calculate_heap (rfm_init_heap so sc oRef cRef).1
         (rfm_init_heap so sc oRef cRef).2.1
         (rfm_init_heap so sc oRef cRef).2.2 reference_date).1 oRef =
       readFrame so oRef) ∧
    (readFrame (cohort_init_heap so oRef).1 oRef = readFrame so oRef ∧
     readFrame (cohort_create_heap M (cohort_init_heap so oRef).1
         (cohort_init_heap so oRef).2).1 oRef = readFrame so oRef) := by
  have hinit : readFrame (rfm_init_heap so sc oRef cRef).1 oRef =
      readFrame so oRef :=
    readFrame_alloc_of_lt so _ oRef ho
  have hinitc : readCust (rfm_init_heap so sc oRef cRef).2.1 cRef =
      readCust sc cRef :=
    readCust_alloc_of_lt sc _ cRef hc
  have hne : (rfm_init_heap so sc oRef cRef).2.2.ordersRef ≠ oRef :=
    Nat.ne_of_gt ho
  have hcalc : readFrame (rfm_calculate_heap (rfm_init_heap so sc oRef cRef).1
      (rfm_init_heap so sc oRef cRef).2.1
      (rfm_init_heap so sc oRef cRef).2.2 reference_date).1 oRef =
      readFrame so oRef := by
    rw [rfm_calculate_heap]
    split
    · rw [readFrame_write_ne _ _ _ _ hne, hinit]
    · rw [readFrame_write_ne _ _ _ _ hne, hinit]
  have hcoh : readFrame (cohort_init_heap so oRef).1 oRef =
      readFrame so oRef := by
    have h2 : (allocFrame so (readFrame so oRef)).2 ≠ oRef := Nat.ne_of_gt ho
    rw [cohort_init_heap]
    rw [readFrame_write_ne _ _ _ _ h2]
    exact readFrame_alloc_of_lt so _ oRef ho
  exact ⟨⟨hinit, hinitc, hcalc⟩, ⟨hcoh, hcoh⟩⟩

theorem c10_witness :
    (readFrame (rfm_init_heap [{ rows := ordersW1, datesConverted := false }]
        [[]] 0 0).1 0 =
      readFrame [{ rows := ordersW1, datesConverted := false }] 0 ∧
     readCust (rfm_init_heap [{ rows := ordersW1, datesConverted := false }]
        [[]] 0 0).2.1 0 = readCust [[]] 0 ∧
     readFrame (rfm_calculate_heap
         (rfm_init_heap [{ rows := ordersW1, datesConverted := false }] [[]] 0 0).1
         (rfm_init_heap [{ rows := ordersW1, datesConverted := false }] [[]] 0 0).2.1
         (rfm_init_heap [{ rows := ordersW1, datesConverted := false }] [[]] 0 0).2.2
         none).1 0 =
       readFrame [{ rows := ordersW1, datesConverted := false }] 0) ∧
    (readFrame (cohort_init_heap [{ rows := ordersW1, datesConverted := false }] 0).1 0 =
       readFrame [{ rows := ordersW1, datesConverted := false }] 0 ∧
     readFrame (cohort_create_heap idMonth
         (cohort_init_heap [{ rows := ordersW1, datesConverted := false }] 0).1
         (cohort_init_heap [{ rows := ordersW1, datesConverted := false }] 0).2).1 0 =
       readFrame [{ rows := ordersW1, datesConverted := false }] 0) :=
  c10_no_caller_mutation [{ rows := ordersW1, datesConverted := false }] [[]]
    0 0 (by decide) (by decide) idMonth none
